import Mathlib

/-!
Verification of the multi-DB semantic-layer planner (`app/llm_planner.py`,
`app/exec_sql.py`, and the federation step of `app/ui_streamlit.py`).

The Python code is shallowly embedded:
* JSON values are the inductive `Json` (numbers as `Rat`, sufficient for the
  model; no claim inspects numeric precision).
* External services are parameters: the LLM chat endpoint is an oracle
  `Nat → String` indexed by call order, Python's `json.loads` is a parameter
  `String → Option Json`, the SQLAlchemy / DuckDB execution layers are
  parameters returning structured outcomes.
* Python exceptions escaping a function are `Except.error`; exceptions caught
  inside (`try/except`) are handled in the corresponding branch.
* Strings are treated per their ASCII semantics (the code's regexes use ASCII
  character classes).
-/

/-- A JSON value as produced by `json.loads`.  Objects keep insertion order,
as Python dicts do; numbers are modelled as rationals. -/
inductive Json where
  | null : Json
  | bool : Bool → Json
  | num : Rat → Json
  | str : String → Json
  | arr : List Json → Json
  | obj : List (String × Json) → Json

/-- Whether a JSON value is a Python dict. -/
def Json.isObj : Json → Bool
  | .obj _ => true
  | _ => false

/-- Python truthiness test (`if not x`) on JSON values: `None`, `False`, `0`,
`""`, `[]`, and an empty dict are falsy. -/
def falsy : Json → Bool
  | .null => true
  | .bool b => !b
  | .num n => decide (n = 0)
  | .str s => s == ""
  | .arr l => l.isEmpty
  | .obj l => l.isEmpty

/-- Python `d.get(key)` on a dict: the value of the first matching key, or
`None` when absent.  On non-dicts Python would raise; callers guard this. -/
def jGet (j : Json) (key : String) : Json :=
  match j with
  | .obj kvs => (kvs.lookup key).getD Json.null
  | _ => Json.null

/-- Python `d.get(key, dflt)` on a dict. -/
def jGetD (j : Json) (key : String) (dflt : Json) : Json :=
  match j with
  | .obj kvs => (kvs.lookup key).getD dflt
  | _ => dflt

/-- Python `str()` of a JSON scalar; containers get a placeholder rendering
(no claim inspects the rendering of containers). -/
def pyStr : Json → String
  | .null => "None"
  | .bool true => "True"
  | .bool false => "False"
  | .num n => toString n
  | .str s => s
  | .arr _ => "[...]"
  | .obj _ => "dict"

/-- Python's `\s` on ASCII text: space, tab, newline, carriage return,
vertical tab, form feed. -/
def pyIsSpace (c : Char) : Bool :=
  c = ' ' || c = '\t' || c = '\n' || c = '\r' || c = '\x0b' || c = '\x0c'

/-- Python `str.strip()`: remove leading and trailing whitespace. -/
def pyStrip (s : String) : String :=
  String.mk (((s.data.dropWhile pyIsSpace).reverse.dropWhile pyIsSpace).reverse)

/-- Python `str.lower()` (ASCII). -/
def pyLower (s : String) : String :=
  String.mk (s.data.map Char.toLower)

/-- A word character for the regex `\b` boundary: `[a-zA-Z0-9_]`. -/
def isWordChar (c : Char) : Bool :=
  c.isAlphanum || c = '_'

/-- A character of the captured table reference: `[a-zA-Z0-9_\."]`. -/
def isRefChar (c : Char) : Bool :=
  c.isAlphanum || c = '_' || c = '.' || c = '"'

/-- One attempt of the regex `\b(?:from|join)\s+([a-zA-Z0-9_\."]+)` (with
`re.I`) at the current position.  `prevW` says whether the preceding character
is a word character (for `\b`).  Returns the captured group and the rest of
the input after the match. -/
def tryMatch (prevW : Bool) (l : List Char) : Option (List Char × List Char) :=
  match l with
  | c1 :: c2 :: c3 :: c4 :: rest =>
    if prevW then none
    else
      let kw := [c1.toLower, c2.toLower, c3.toLower, c4.toLower]
      if kw = ['f', 'r', 'o', 'm'] || kw = ['j', 'o', 'i', 'n'] then
        let ws := rest.takeWhile pyIsSpace
        if ws.isEmpty then none
        else
          let r1 := rest.drop ws.length
          let ref := r1.takeWhile isRefChar
          if ref.isEmpty then none
          else some (ref, r1.drop ref.length)
      else none
  | _ => none

/-- The scan of `re.finditer`: left to right, non-overlapping; after a match
the scan resumes after the captured group.  `fuel` bounds the number of steps
(each step consumes at least one character, so `l.length` suffices). -/
def refScan : Nat → Bool → List Char → List (List Char)
  | 0, _, _ => []
  | _, _, [] => []
  | Nat.succ fuel, prevW, c :: rest =>
    match tryMatch prevW (c :: rest) with
    | some (ref, rem) => ref :: refScan fuel (isWordChar (ref.getLastD ' ')) rem
    | none => refScan fuel (isWordChar c) rest

/-- All captured table references after a FROM or JOIN keyword in `sql`. -/
def extractRefs (sql : String) : List String :=
  (refScan sql.data.length false sql.data).map String.mk

/-- The planner's `norm`: strip double quotes, then qualify an unqualified
name with the `public.` schema. -/
def normRef (t : String) : String :=
  let t2 := String.mk (t.data.filter (fun c => c ≠ '"'))
  if t2.data.contains '.' then t2 else "public." ++ t2

/-- The skinny column record built by `_slim_catalog`. -/
structure SlimTable where
  columns : List Json

/-- One database of the slim catalog: fully-qualified table name to columns. -/
structure SlimDb where
  tables : List (String × SlimTable)

/-- The scope validator `_db_scope_check`: every FROM/JOIN reference,
quote-stripped, schema-normalized and lowercased, must be one of the
database's (lowercased) table names. -/
def _db_scope_check (db_id : String) (sql : String)
    (catalog : List (String × SlimDb)) : Bool :=
  let tables := (((catalog.lookup db_id).map SlimDb.tables).getD []).map Prod.fst
  let tablesL := tables.map pyLower
  let refs := (extractRefs sql).map (fun r => pyLower (normRef (pyStrip r)))
  refs.all (fun r => tablesL.contains r)

/-- The recovery step of `_coerce_json`: the match of `re.search(r"\{.*\}\s*$",
text, re.S)`.  It exists iff some `}` is followed only by whitespace and some
`{` precedes it; the greedy match runs from the first `{` of the text to the
last such `}`. -/
def extractTrailingObj (t : String) : Option String :=
  let rts := t.data.reverse.dropWhile pyIsSpace
  match rts with
  | '\x7d' :: _ =>
    let body := rts.reverse
    let after := body.dropWhile (fun c => c ≠ '\x7b')
    if after.isEmpty then none else some (String.mk after)
  | _ => none

/-- The planner's `_coerce_json`, with `json.loads` as the parameter `loads`
(`none` models a `JSONDecodeError`).  A parse failure of the stripped text is
recovered once by re-parsing the trailing `{...}` block; with no such block a
`ValueError` is raised, and a parse failure of the block itself propagates
the `JSONDecodeError`. -/
def _coerce_json (loads : String → Option Json) (text : String) :
    Except String Json :=
  let t := pyStrip text
  match loads t with
  | some j => .ok j
  | none =>
    match extractTrailingObj t with
    | some block =>
      match loads block with
      | some j => .ok j
      | none => .error "json.JSONDecodeError"
    | none => .error "Planner LLM did not return valid JSON."

/-- One table of the raw input catalog (`t.get("columns") or []`; `none`
models an absent or `None` entry). -/
structure CatTable where
  columns : Option (List Json)

/-- One database of the raw input catalog (`db.get("tables") or {}`). -/
structure CatDb where
  tables : Option (List (String × CatTable))

/-- The skinny rendering of one column spec in `_slim_catalog`: a dict keeps
only `name` and `type`, anything else becomes `{"name": str(c)}`. -/
def skinnyCol (c : Json) : Json :=
  match c with
  | .obj kvs =>
    .obj [("name", (kvs.lookup "name").getD Json.null),
          ("type", (kvs.lookup "type").getD Json.null)]
  | c => .obj [("name", .str (pyStr c))]

/-- The planner's `_slim_catalog` with the default limits
(`max_tables = 150`, `max_cols = 80`). -/
def _slim_catalog (catalog_by_db : List (String × CatDb)) :
    List (String × SlimDb) :=
  catalog_by_db.map (fun p =>
    (p.1,
     ⟨((p.2.tables.getD []).take 150).map
        (fun q => (q.1, ⟨((q.2.columns.getD []).take 80).map skinnyCol⟩))⟩))

/-- Membership of a JSON value in `seen_db_ids` (a set of accepted db_id
strings; Python equality of a non-string with a string is `False`). -/
def seenHas (seen : List String) : Json → Bool
  | .str s => seen.contains s
  | _ => false

/-- Python `(item.get(key) or "").strip()` on a dict `item`: a falsy value
becomes `""`; a truthy non-string raises `AttributeError` on `.strip()`, and
calling `.get` on a non-dict raises as well. -/
def pyGetStrOr (item : Json) (key : String) : Except String String :=
  match item with
  | .obj kvs =>
    let v := (kvs.lookup key).getD Json.null
    match (if falsy v then Json.str "" else v) with
    | .str t => .ok (pyStrip t)
    | _ => .error "AttributeError: strip"
  | _ => .error "AttributeError: get"

/-- Python `item.get("purpose") or "query"` on a dict `item`. -/
def purposeOf (item : Json) : Json :=
  let p := jGet item "purpose"
  if falsy p then Json.str "query" else p

/-- One entry of the returned `per_db_sql` list. -/
structure PlanItem where
  db_id : String
  sql : String
  purpose : Json

/-- The value returned by `plan`. -/
structure PlanResult where
  per_db_sql : List PlanItem
  final_sql : String

/-- The repair branch of `plan`'s loop, inside its `try/except`: coerce the
repair response, read its `sql`, and accept it only when non-empty and in
scope.  Any exception (unparseable response, non-dict response, non-string
`sql`) yields `none` and the item is dropped. -/
def repairResult (loads : String → Option Json) (resp : String)
    (db_id : String) (slim : List (String × SlimDb)) : Option String :=
  match _coerce_json loads resp with
  | .error _ => none
  | .ok fixed =>
    match pyGetStrOr fixed "sql" with
    | .error _ => none
    | .ok sql2 =>
      if sql2 ≠ "" && _db_scope_check db_id sql2 slim then some sql2 else none

/-- One iteration of `plan`'s loop over the candidate items.  The LLM is the
oracle `oracle : Nat → String` indexed by the number of completed chat calls;
`k` is the index the next call would use.  Returns the accepted item (if
any), the updated `seen_db_ids`, and the next call index; `Except.error`
models an exception escaping `plan`. -/
def procStep (loads : String → Option Json) (oracle : Nat → String)
    (slim : List (String × SlimDb)) (item : Json) (seen : List String)
    (k : Nat) : Except String (Option PlanItem × List String × Nat) :=
  if !item.isObj then .ok (none, seen, k)
  else if falsy (jGet item "db_id") || seenHas seen (jGet item "db_id") then
    .ok (none, seen, k)
  else
    match pyGetStrOr item "sql" with
    | .error e => .error e
    | .ok sql =>
      if sql = "" then .ok (none, seen, k)
      else
        match jGet item "db_id" with
        | .str db_id =>
          if (slim.lookup db_id).isNone then .ok (none, seen, k)
          else if _db_scope_check db_id sql slim then
            .ok (some ⟨db_id, sql, purposeOf item⟩, db_id :: seen, k)
          else
            match repairResult loads (oracle k) db_id slim with
            | some sql2 =>
              .ok (some ⟨db_id, sql2, purposeOf item⟩, db_id :: seen, k + 1)
            | none => .ok (none, seen, k + 1)
        | _ => .ok (none, seen, k)

/-- The loop of `plan` over the candidate items, threading `seen_db_ids` and
the oracle index; returns the accepted items in order. -/
def procItems (loads : String → Option Json) (oracle : Nat → String)
    (slim : List (String × SlimDb)) :
    List Json → List String → Nat → Except String (List PlanItem × Nat)
  | [], _, k => .ok ([], k)
  | item :: rest, seen, k =>
    match procStep loads oracle slim item seen k with
    | .error e => .error e
    | .ok (acc, seen', k') =>
      match procItems loads oracle slim rest seen' k' with
      | .error e => .error e
      | .ok (out, kf) =>
        match acc with
        | some it => .ok (it :: out, kf)
        | none => .ok (out, kf)

/-- The planner entry point `plan`.  The natural-language query and the slim
catalog only shape the prompt, which the oracle model abstracts over; call 0
is the initial planning request, later indices are repair requests in loop
order. -/
def plan (loads : String → Option Json) (oracle : Nat → String)
    (nl_query : String) (catalog_by_db : List (String × CatDb)) :
    Except String PlanResult :=
  let _ := nl_query
  let slim := _slim_catalog catalog_by_db
  match _coerce_json loads (oracle 0) with
  | .error e => .error e
  | .ok data =>
    match data with
    | .obj kvs =>
      match (kvs.lookup "per_db_sql").getD (Json.arr []) with
      | .arr per_db =>
        match procItems loads oracle slim per_db [] 1 with
        | .error e => .error e
        | .ok (out_list, _) =>
          let fs := (kvs.lookup "final_sql").getD (Json.str "")
          let final_sql := match fs with | .str s => s | _ => ""
          .ok ⟨out_list, pyStrip final_sql⟩
      | _ => .error "per_db_sql must be a list"
    | _ => .error "AttributeError: get"

/-- The `columns` entry of `llm_generate_final_sql`'s `table_schemas` for one
metadata value: `meta["columns"]` when `meta` is a dict with that key, else
`[]`. -/
def colsOf (meta : Json) : Json :=
  match meta with
  | .obj kvs =>
    match kvs.lookup "columns" with
    | some v => v
    | none => Json.arr []
  | _ => Json.arr []

/-- The `table_schemas` dict built by `llm_generate_final_sql` from the
per-db metadata. -/
def tableSchemasOf (per_db_metadata : List (String × Json)) :
    List (String × Json) :=
  per_db_metadata.map (fun p => (p.1, Json.obj [("columns", colsOf p.2)]))

/-- The system prompt of `llm_generate_final_sql` (constant text; abridged
here to its first sentence, as no claim inspects the wording). -/
def SYSTEM_FED : String :=
  "You are a SQL assistant that MUST be type-aware. You will receive only table metadata (no row-level data)."

/-- The user prompt of `llm_generate_final_sql`: the f-string interpolating
the natural-language request and the serialized `table_schemas` (text between
the interpolations abridged, as no claim inspects the wording). -/
def USER_FED (nl_query table_schemas_json : String) : String :=
  "Natural language request:\n" ++ nl_query ++
    "\n\nAvailable tables and columns (metadata only):\n" ++
    table_schemas_json ++ "\nReturn a single SQL statement."

/-- The HTTP request body `llm_generate_final_sql` posts to the chat
endpoint.  `dumps` is Python's `json.dumps(..., indent=2)`. -/
def llm_fed_payload (dumps : Json → String) (nl_query : String)
    (openai_model : String) (per_db_metadata : List (String × Json)) : Json :=
  let table_schemas := tableSchemasOf per_db_metadata
  let table_schemas_json := dumps (Json.obj table_schemas)
  Json.obj
    [("model", Json.str openai_model),
     ("response_format", Json.obj [("type", Json.str "text")]),
     ("messages", Json.arr
       [Json.obj [("role", Json.str "system"),
                  ("content", Json.str SYSTEM_FED)],
        Json.obj [("role", Json.str "user"),
                  ("content", Json.str (USER_FED nl_query table_schemas_json))]]),
     ("temperature", Json.num (1 / 10))]

/-- The outcome of the SQLAlchemy execution layer inside `exec_sql`'s `try`:
either the result keys and mappings, or a raised `SQLAlchemyError`. -/
inductive DbOutcome where
  | ok (keys : List Json) (rows : List (List (String × Json))) : DbOutcome
  | err (msg : String) : DbOutcome

/-- The dict returned by `exec_sql`. -/
structure ExecResult where
  columns : List String
  rows : List (List (String × Json))
  error : Option String

/-- The executor `exec_sql`, with the engine/connection/execution layer as
the parameter `run`.  It is total: a raised `SQLAlchemyError` becomes an
empty result with the message in `error`; on success every row is
materialized and each key is coerced to `str`. -/
def exec_sql (run : String → String → DbOutcome) (dsn sql : String) :
    ExecResult :=
  match run dsn sql with
  | .ok keys rows =>
    ⟨keys.map (fun c => match c with | .str s => s | c => pyStr c), rows, none⟩
  | .err e => ⟨[], [], some e⟩

/-- A pandas DataFrame as the federation step sees it: column names plus
rows (values irrelevant to the claims). -/
structure DFrame where
  columns : List String
  rows : List (List Json)

/-- The observable outcome of the federation step of the Run handler:
the final DataFrame shown (or the error shown instead), whether the
federation LLM was consulted, and whether the analytical engine (DuckDB) was
used at all. -/
structure FedOutcome where
  result : Option DFrame
  errorMsg : Option String
  llmCalled : Bool
  engineUsed : Bool

/-- The set-intersection of the per-source column-name lists, as built by the
degenerate-schema repair (`set(all_cols[0])` intersected with the rest;
represented as a deduplicated list, since only its set of members is used). -/
def commonCols (all_cols : List (List String)) : List String :=
  match all_cols with
  | [] => []
  | c0 :: rest => (c0.filter (fun c => rest.all (fun cs => cs.contains c))).dedup

/-- The order-preserving union of the per-source column-name lists, as built
by the repair's fallback loop. -/
def unionCols (all_cols : List (List String)) : List String :=
  all_cols.foldl
    (fun acc cols =>
      cols.foldl (fun acc c => if acc.contains c then acc else acc ++ [c]) acc)
    []

/-- The federation step of the Run handler (`ui_streamlit.py`, after the
per-db results are collected into `per_db_dfs`).  External layers are
parameters: `llmSql` is `llm_generate_final_sql` (query and metadata to SQL,
or a raised exception), `engineExec` is DuckDB execution of the federation
SQL, and `describe` is the metadata derivation for one registered table
(PRAGMA table_info with dtype fallback). -/
def federationStep (llmSql : String → List (String × List String) → Except String String)
    (engineExec : String → Except String DFrame)
    (describe : String → DFrame → List String)
    (query : String) (per_db_dfs : List (String × DFrame)) : FedOutcome :=
  match per_db_dfs with
  | [] => ⟨none, none, false, false⟩
  | [(_, single_df)] => ⟨some single_df, none, false, false⟩
  | _ =>
    let per_db_metadata := per_db_dfs.map (fun p => (p.1, describe p.1 p.2))
    match llmSql query per_db_metadata with
    | .error e =>
      ⟨none, some ("Failed to generate final SQL from metadata: " ++ e),
       true, true⟩
    | .ok sql_used =>
      match engineExec sql_used with
      | .error e => ⟨none, some ("DuckDB execution failed: " ++ e), true, true⟩
      | .ok df0 =>
        if df0.columns.length = 0 then
          let all_cols := per_db_dfs.map (fun p => p.2.columns)
          let common := commonCols all_cols
          if common.isEmpty then ⟨some ⟨unionCols all_cols, []⟩, none, true, true⟩
          else ⟨some ⟨common, []⟩, none, true, true⟩
        else ⟨some df0, none, true, true⟩

/-- A concrete input catalog with one database and two tables. -/
def demoCat : List (String × CatDb) :=
  [("d", ⟨some [("public.t1", ⟨some []⟩), ("public.t2", ⟨some []⟩)]⟩)]

/-- The slim catalog of `demoCat`. -/
def demoSlim : List (String × SlimDb) :=
  [("d", ⟨[("public.t1", ⟨[]⟩), ("public.t2", ⟨[]⟩)]⟩)]

/-- A concrete `json.loads` knowing the two responses used by the demos. -/
def demoLoads : String → Option Json := fun s =>
  if s = "PLAN" then
    some (Json.obj
      [("per_db_sql", Json.arr
        [Json.obj [("db_id", Json.str "d"),
                   ("sql", Json.str "select 1 from t1")]]),
       ("final_sql", Json.str " x ")])
  else if s = "FIX" then some (Json.obj [("sql", Json.str "select 1 from t2")])
  else none

/-- A concrete LLM oracle: the planning response, then repair responses. -/
def demoOracle : Nat → String := fun k => if k = 0 then "PLAN" else "FIX"

/-- A concrete LLM oracle whose responses never parse. -/
def demoOracle2 : Nat → String := fun _ => "junk"

/-- A candidate item whose SQL references a table outside the catalog. -/
def demoBadItem : Json :=
  Json.obj [("db_id", Json.str "d"), ("sql", Json.str "select 1 from zzz")]

/-- A candidate item whose SQL is in scope for database `d`. -/
def demoGoodItem : Json :=
  Json.obj [("db_id", Json.str "d"), ("sql", Json.str "select 1 from t1")]

/-- The single-source demo LLM federation layer (constant SQL). -/
def demoLlmFed : String → List (String × List String) → Except String String :=
  fun _ _ => Except.ok "SELECT 1"

/-- A demo engine whose execution returns a zero-column result. -/
def demoEngZero : String → Except String DFrame :=
  fun _ => Except.ok ⟨[], []⟩

/-- A demo metadata derivation. -/
def demoDescribe : String → DFrame → List String := fun _ _ => []

/-- C1: for every database id, SQL string and catalog, `_db_scope_check`
returns true iff every table reference extracted after a FROM or JOIN keyword
— quote-stripped, normalized to the `public.` qualifier when unqualified, and
compared case-insensitively — is a member of that database's table set; in
particular a FROM/JOIN reference to a table absent from the database's
catalog slice makes validation return false. -/
theorem db_scope_check_iff_all_refs_known (db_id sql : String)
    (catalog : List (String × SlimDb)) (dbc : SlimDb)
    (h : catalog.lookup db_id = some dbc) :
    (_db_scope_check db_id sql catalog = true ↔
      ∀ r ∈ extractRefs sql,
        pyLower (normRef (pyStrip r)) ∈ (dbc.tables.map Prod.fst).map pyLower)
    ∧ ∀ r ∈ extractRefs sql,
        pyLower (normRef (pyStrip r)) ∉ (dbc.tables.map Prod.fst).map pyLower →
        _db_scope_check db_id sql catalog = false := by
  have hiff : _db_scope_check db_id sql catalog = true ↔
      ∀ r ∈ extractRefs sql,
        pyLower (normRef (pyStrip r)) ∈ (dbc.tables.map Prod.fst).map pyLower := by
    simp only [_db_scope_check, h, Option.map_some, Option.getD_some,
      List.all_eq_true, List.mem_map]
    constructor
    · rintro hall r hr
      have := hall _ ⟨r, hr, rfl⟩
      simpa [List.contains_iff_exists_mem_beq, beq_iff_eq] using this
    · rintro hall x ⟨r, hr, rfl⟩
      simpa [List.contains_iff_exists_mem_beq, beq_iff_eq] using hall r hr
  refine ⟨hiff, ?_⟩
  intro r hr hno
  cases hchk : _db_scope_check db_id sql catalog with
  | false => rfl
  | true => exact absurd (hiff.mp hchk r hr) hno

/-- Witness for C1 at a concrete catalog and SQL text: the reference `nope`
normalizes to `public.nope`, which is not among the tables of `d`, so
validation fails; the validator agrees. -/
theorem db_scope_check_iff_all_refs_known_witness :
    ([(("d" : String), (⟨[("public.t1", ⟨[]⟩)]⟩ : SlimDb))].lookup "d" =
        some ⟨[("public.t1", ⟨[]⟩)]⟩)
    ∧ ((_db_scope_check "d" "select * from nope"
          [("d", ⟨[("public.t1", ⟨[]⟩)]⟩)] = true ↔
        ∀ r ∈ extractRefs "select * from nope",
          pyLower (normRef (pyStrip r)) ∈
            ((⟨[("public.t1", ⟨[]⟩)]⟩ : SlimDb).tables.map Prod.fst).map pyLower)
      ∧ ∀ r ∈ extractRefs "select * from nope",
          pyLower (normRef (pyStrip r)) ∉
            ((⟨[("public.t1", ⟨[]⟩)]⟩ : SlimDb).tables.map Prod.fst).map pyLower →
          _db_scope_check "d" "select * from nope"
            [("d", ⟨[("public.t1", ⟨[]⟩)]⟩)] = false) :=
  ⟨rfl,
   db_scope_check_iff_all_refs_known "d" "select * from nope"
     [("d", ⟨[("public.t1", ⟨[]⟩)]⟩)] ⟨[("public.t1", ⟨[]⟩)]⟩ rfl⟩

/-- A successful repair yields a non-empty SQL text that passes the scope
check for the same database. -/
theorem repairResult_some (loads : String → Option Json) (resp db_id : String)
    (slim : List (String × SlimDb)) (sql2 : String)
    (h : repairResult loads resp db_id slim = some sql2) :
    sql2 ≠ "" ∧ _db_scope_check db_id sql2 slim = true := by
  unfold repairResult at h
  split at h
  · exact absurd h (by simp)
  · split at h
    · exact absurd h (by simp)
    · split at h
      · rename_i hcond
        cases h
        simpa using hcond
      · exact absurd h (by simp)

/-- Unfolding of the loop of `plan` at a cons, given the step's outcome. -/
theorem procItems_cons (loads : String → Option Json) (oracle : Nat → String)
    (slim : List (String × SlimDb)) (item : Json) (rest : List Json)
    (seen : List String) (k : Nat) (acc : Option PlanItem)
    (seen' : List String) (k' : Nat)
    (h : procStep loads oracle slim item seen k = .ok (acc, seen', k')) :
    procItems loads oracle slim (item :: rest) seen k =
      match acc with
      | some it =>
        Except.map (fun r => (it :: r.1, r.2))
          (procItems loads oracle slim rest seen' k')
      | none => procItems loads oracle slim rest seen' k' := by
  simp only [procItems, h]
  cases procItems loads oracle slim rest seen' k' with
  | error e => cases acc <;> simp [Except.map]
  | ok r => cases acc <;> simp [Except.map]

/-- A step that accepts no item leaves `seen_db_ids` unchanged, and consumes
at most one LLM call. -/
theorem procStep_skip (loads : String → Option Json) (oracle : Nat → String)
    (slim : List (String × SlimDb)) (item : Json) (seen : List String)
    (k : Nat) (seen' : List String) (k' : Nat)
    (h : procStep loads oracle slim item seen k = .ok (none, seen', k')) :
    seen' = seen ∧ (k' = k ∨ k' = k + 1) := by
  unfold procStep at h
  split at h
  · obtain ⟨h1, h2⟩ : seen = seen' ∧ k = k' := by simpa using h
    exact ⟨h1.symm, Or.inl h2.symm⟩
  · split at h
    · obtain ⟨h1, h2⟩ : seen = seen' ∧ k = k' := by simpa using h
      exact ⟨h1.symm, Or.inl h2.symm⟩
    · split at h
      · exact absurd h (by simp)
      · split at h
        · obtain ⟨h1, h2⟩ : seen = seen' ∧ k = k' := by simpa using h
          exact ⟨h1.symm, Or.inl h2.symm⟩
        · split at h
          · split at h
            · obtain ⟨h1, h2⟩ : seen = seen' ∧ k = k' := by simpa using h
              exact ⟨h1.symm, Or.inl h2.symm⟩
            · split at h
              · exact absurd h (by simp)
              · split at h
                · exact absurd h (by simp)
                · obtain ⟨h1, h2⟩ : seen = seen' ∧ k + 1 = k' := by simpa using h
                  exact ⟨h1.symm, Or.inr h2.symm⟩
          · obtain ⟨h1, h2⟩ : seen = seen' ∧ k = k' := by simpa using h
            exact ⟨h1.symm, Or.inl h2.symm⟩

/-- A step that accepts an item accepts only a non-empty SQL text, for a
db_id that is a key of the slim catalog, not yet seen, whose SQL passes the
scope check; the db_id is recorded in `seen_db_ids`. -/
theorem procStep_accept (loads : String → Option Json) (oracle : Nat → String)
    (slim : List (String × SlimDb)) (item : Json) (seen : List String)
    (k : Nat) (it : PlanItem) (seen' : List String) (k' : Nat)
    (h : procStep loads oracle slim item seen k = .ok (some it, seen', k')) :
    it.sql ≠ "" ∧ (slim.lookup it.db_id).isSome = true
      ∧ _db_scope_check it.db_id it.sql slim = true
      ∧ it.db_id ∉ seen ∧ seen' = it.db_id :: seen := by
  unfold procStep at h
  split at h
  · exact absurd h (by simp)
  · rename_i hflags
    split at h
    · exact absurd h (by simp)
    · rename_i hnotseen
      simp only [Bool.or_eq_true, not_or, Bool.not_eq_true] at hnotseen
      split at h
      · exact absurd h (by simp)
      · rename_i sql hget
        split at h
        · exact absurd h (by simp)
        · rename_i hne
          split at h
          · rename_i db_id heqdb
            split at h
            · exact absurd h (by simp)
            · rename_i hlook
              rw [heqdb] at hnotseen
              have hmem : db_id ∉ seen := by
                intro hmem
                have : seenHas seen (Json.str db_id) = true := by
                  simp only [seenHas, List.contains_iff_exists_mem_beq]
                  exact ⟨db_id, hmem, by simp⟩
                rw [this] at hnotseen
                exact absurd hnotseen.2 (by simp)
              have hsome : (slim.lookup db_id).isSome = true := by
                cases hl : slim.lookup db_id with
                | none => rw [hl] at hlook; simp at hlook
                | some v => rfl
              split at h
              · rename_i hscope
                obtain ⟨h1, h2, h3⟩ :
                    (⟨db_id, sql, purposeOf item⟩ : PlanItem) = it
                      ∧ db_id :: seen = seen' ∧ k = k' := by simpa using h
                subst h1
                exact ⟨hne, hsome, hscope, hmem, h2.symm⟩
              · split at h
                · rename_i sql2 hrep
                  obtain ⟨h1, h2, h3⟩ :
                      (⟨db_id, sql2, purposeOf item⟩ : PlanItem) = it
                        ∧ db_id :: seen = seen' ∧ k + 1 = k' := by simpa using h
                  subst h1
                  obtain ⟨hne2, hsc2⟩ := repairResult_some _ _ _ _ _ hrep
                  exact ⟨hne2, hsome, hsc2, hmem, h2.symm⟩
                · exact absurd h (by simp)
          · exact absurd h (by simp)

/-- The loop invariant of `plan`: every accepted item has a non-empty SQL
text that passes the scope check for its db_id, a db_id keyed in the slim
catalog and not previously seen, and the accepted db_ids are pairwise
distinct. -/
theorem procItems_sound (loads : String → Option Json) (oracle : Nat → String)
    (slim : List (String × SlimDb)) :
    ∀ (items : List Json) (seen : List String) (k : Nat)
      (out : List PlanItem) (kf : Nat),
      procItems loads oracle slim items seen k = .ok (out, kf) →
      (∀ it ∈ out, it.sql ≠ "" ∧ (slim.lookup it.db_id).isSome = true
        ∧ _db_scope_check it.db_id it.sql slim = true ∧ it.db_id ∉ seen)
      ∧ (out.map PlanItem.db_id).Nodup := by
  intro items
  induction items with
  | nil =>
    intro seen k out kf h
    obtain ⟨rfl, rfl⟩ : ([] : List PlanItem) = out ∧ k = kf := by
      simpa [procItems] using h
    exact ⟨by simp, by simp⟩
  | cons item rest ih =>
    intro seen k out kf h
    rw [procItems] at h
    cases hps : procStep loads oracle slim item seen k with
    | error e => rw [hps] at h; simp at h
    | ok st =>
      obtain ⟨acc, seen', k'⟩ := st
      rw [hps] at h
      dsimp only at h
      cases hrest : procItems loads oracle slim rest seen' k' with
      | error e => rw [hrest] at h; simp at h
      | ok r =>
        obtain ⟨out', kf'⟩ := r
        rw [hrest] at h
        dsimp only at h
        obtain ⟨hprops, hnodup⟩ := ih seen' k' out' kf' hrest
        cases acc with
        | none =>
          obtain ⟨rfl, rfl⟩ : out' = out ∧ kf' = kf := by simpa using h
          obtain ⟨hseen, _⟩ := procStep_skip _ _ _ _ _ _ _ _ hps
          subst hseen
          exact ⟨hprops, hnodup⟩
        | some it =>
          obtain ⟨rfl, rfl⟩ : it :: out' = out ∧ kf' = kf := by simpa using h
          obtain ⟨hne, hsome, hscope, hmem, hseen'⟩ :=
            procStep_accept _ _ _ _ _ _ _ _ _ hps
          subst hseen'
          constructor
          · intro x hx
            rcases List.mem_cons.mp hx with rfl | hx
            · exact ⟨hne, hsome, hscope, hmem⟩
            · obtain ⟨p1, p2, p3, p4⟩ := hprops x hx
              exact ⟨p1, p2, p3, fun hm => p4 (List.mem_cons_of_mem _ hm)⟩
          · rw [List.map_cons, List.nodup_cons]
            refine ⟨?_, hnodup⟩
            intro hmm
            obtain ⟨x, hx, hxd⟩ := List.mem_map.mp hmm
            exact (hprops x hx).2.2.2 (hxd ▸ List.mem_cons_self _ _)

/-- The invariant of `plan` lifted from the loop invariant: every returned
item has a non-empty SQL text passing the scope check for a catalog-keyed
db_id, and returned db_ids are pairwise distinct. -/
theorem plan_sound_aux (loads : String → Option Json)
    (oracle : Nat → String) (nl_query : String)
    (catalog_by_db : List (String × CatDb)) (res : PlanResult)
    (h : plan loads oracle nl_query catalog_by_db = .ok res) :
    (∀ it ∈ res.per_db_sql, it.sql ≠ ""
      ∧ ((_slim_catalog catalog_by_db).lookup it.db_id).isSome = true
      ∧ _db_scope_check it.db_id it.sql (_slim_catalog catalog_by_db) = true)
    ∧ (res.per_db_sql.map PlanItem.db_id).Nodup := by
  unfold plan at h
  dsimp only at h
  split at h
  · exact absurd h (by simp)
  · split at h
    · split at h
      · split at h
        · exact absurd h (by simp)
        · rename_i out kf hloop
          obtain ⟨hout, -⟩ : (⟨out, _⟩ : PlanResult) = res ∧ True := by
            refine ⟨?_, trivial⟩
            simpa using h
          obtain ⟨hprops, hnodup⟩ :=
            procItems_sound loads oracle (_slim_catalog catalog_by_db)
              _ [] 1 out kf hloop
          rw [← hout]
          exact ⟨fun it hit => ⟨(hprops it hit).1, (hprops it hit).2.1,
            (hprops it hit).2.2.1⟩, hnodup⟩
      · exact absurd h (by simp)
    · exact absurd h (by simp)

/-- C2: a candidate item whose SQL fails the scope check triggers exactly one
repair LLM request (the call at index `k`; the loop continues at `k + 1` in
either case, so no second repair happens for this item); the item enters the
plan iff the repair response coerces to JSON whose `sql` is a non-empty
string passing the scope check, and otherwise only this item is dropped —
the rest of the plan is processed normally. -/
theorem plan_scope_violation_single_repair (loads : String → Option Json)
    (oracle : Nat → String) (slim : List (String × SlimDb)) (item : Json)
    (rest : List Json) (seen : List String) (k : Nat) (db_id sql : String)
    (hobj : item.isObj = true)
    (hstr : jGet item "db_id" = Json.str db_id)
    (hdb : db_id ≠ "")
    (hseen : seen.contains db_id = false)
    (hsql : pyGetStrOr item "sql" = Except.ok sql)
    (hne : sql ≠ "")
    (hin : (slim.lookup db_id).isSome = true)
    (hscope : _db_scope_check db_id sql slim = false) :
    procItems loads oracle slim (item :: rest) seen k =
      match repairResult loads (oracle k) db_id slim with
      | some sql2 =>
        Except.map (fun r => ((⟨db_id, sql2, purposeOf item⟩ : PlanItem) :: r.1, r.2))
          (procItems loads oracle slim rest (db_id :: seen) (k + 1))
      | none => procItems loads oracle slim rest seen (k + 1) := by
  obtain ⟨dbc, hdbc⟩ := Option.isSome_iff_exists.mp hin
  have hseen' : db_id ∉ seen := by
    intro hm
    have hc : seen.contains db_id = true := by
      simp only [List.contains_iff_exists_mem_beq]
      exact ⟨db_id, hm, by simp⟩
    rw [hc] at hseen
    cases hseen
  have hps : procStep loads oracle slim item seen k =
      match repairResult loads (oracle k) db_id slim with
      | some sql2 =>
        .ok (some ⟨db_id, sql2, purposeOf item⟩, db_id :: seen, k + 1)
      | none => .ok (none, seen, k + 1) := by
    unfold procStep
    rw [hstr, hsql]
    simp [hobj, falsy, seenHas, hseen', hdb, hne, hscope, hdbc]
  cases hrep : repairResult loads (oracle k) db_id slim with
  | some sql2 =>
    rw [hrep] at hps
    rw [procItems_cons loads oracle slim item rest seen k _ _ _ hps]
  | none =>
    rw [hrep] at hps
    rw [procItems_cons loads oracle slim item rest seen k _ _ _ hps]

/-- C9: every item of the `per_db_sql` list returned by `plan` satisfies:
its SQL text is non-empty, its db_id is a key of the slim catalog built from
the input catalog, its SQL passes `_db_scope_check` for its db_id, and the
returned db_ids are pairwise distinct — for every LLM response, repaired
items included. -/
theorem plan_output_invariant (loads : String → Option Json)
    (oracle : Nat → String) (nl_query : String)
    (catalog_by_db : List (String × CatDb)) (res : PlanResult)
    (h : plan loads oracle nl_query catalog_by_db = .ok res) :
    (∀ it ∈ res.per_db_sql, it.sql ≠ ""
      ∧ ((_slim_catalog catalog_by_db).lookup it.db_id).isSome = true
      ∧ _db_scope_check it.db_id it.sql (_slim_catalog catalog_by_db) = true)
    ∧ (res.per_db_sql.map PlanItem.db_id).Nodup :=
  plan_sound_aux loads oracle nl_query catalog_by_db res h

/-- C4: db_id de-duplication in `plan`.  A candidate whose db_id is already
in `seen_db_ids` is skipped outright — dropped, not merged — so the loop
continues as if it were absent; consequently the returned `per_db_sql` list
holds at most one item per db_id. -/
theorem plan_first_db_id_wins (loads : String → Option Json)
    (oracle : Nat → String) (slim : List (String × SlimDb)) :
    (∀ (item : Json) (rest : List Json) (seen : List String) (k : Nat),
      item.isObj = true → seenHas seen (jGet item "db_id") = true →
      procItems loads oracle slim (item :: rest) seen k =
        procItems loads oracle slim rest seen k)
    ∧ ∀ (nl_query : String) (catalog_by_db : List (String × CatDb))
        (res : PlanResult),
        plan loads oracle nl_query catalog_by_db = .ok res →
        (res.per_db_sql.map PlanItem.db_id).Nodup := by
  constructor
  · intro item rest seen k hobj hseen
    have hps : procStep loads oracle slim item seen k = .ok (none, seen, k) := by
      unfold procStep
      simp [hobj, hseen]
    rw [procItems_cons loads oracle slim item rest seen k _ _ _ hps]
  · intro nl_query catalog_by_db res h
    exact (plan_sound_aux loads oracle nl_query catalog_by_db res h).2

/-- C10: de-duplication is keyed on accepted items only.  A step that drops
its item (returns no accepted item) leaves `seen_db_ids` unchanged, and the
loop continues on the remaining candidates from the very same `seen` set —
so a later candidate with the same db_id as a dropped earlier candidate can
still be accepted. -/
theorem plan_dropped_item_does_not_block (loads : String → Option Json)
    (oracle : Nat → String) (slim : List (String × SlimDb)) (item : Json)
    (rest : List Json) (seen : List String) (k : Nat) (seen' : List String)
    (k' : Nat)
    (h : procStep loads oracle slim item seen k = .ok (none, seen', k')) :
    seen' = seen ∧
    procItems loads oracle slim (item :: rest) seen k =
      procItems loads oracle slim rest seen k' := by
  obtain ⟨h1, -⟩ := procStep_skip _ _ _ _ _ _ _ _ h
  have h2 : procStep loads oracle slim item seen k = .ok (none, seen, k') := by
    rw [h, h1]
  exact ⟨h1, by rw [procItems_cons loads oracle slim item rest seen k _ _ _ h2]⟩

/-- Witness for C9: a full concrete run of `plan` (one in-scope item), and
the invariant instantiated on its output. -/
theorem plan_output_invariant_witness :
    (plan demoLoads demoOracle "q" demoCat =
      Except.ok ⟨[⟨"d", "select 1 from t1", Json.str "query"⟩], "x"⟩)
    ∧ ((∀ it ∈ (⟨[⟨"d", "select 1 from t1", Json.str "query"⟩], "x"⟩ :
          PlanResult).per_db_sql, it.sql ≠ ""
        ∧ ((_slim_catalog demoCat).lookup it.db_id).isSome = true
        ∧ _db_scope_check it.db_id it.sql (_slim_catalog demoCat) = true)
      ∧ (((⟨[⟨"d", "select 1 from t1", Json.str "query"⟩], "x"⟩ :
          PlanResult).per_db_sql).map PlanItem.db_id).Nodup) :=
  ⟨rfl, plan_output_invariant demoLoads demoOracle "q" demoCat
    ⟨[⟨"d", "select 1 from t1", Json.str "query"⟩], "x"⟩ rfl⟩

/-- Witness for C2: a concrete out-of-scope item; its hypotheses evaluate,
and the theorem gives the loop equation (here the repair succeeds). -/
theorem plan_scope_violation_single_repair_witness :
    (demoBadItem.isObj = true
      ∧ jGet demoBadItem "db_id" = Json.str "d"
      ∧ ("d" : String) ≠ ""
      ∧ ([] : List String).contains "d" = false
      ∧ pyGetStrOr demoBadItem "sql" = Except.ok "select 1 from zzz"
      ∧ ("select 1 from zzz" : String) ≠ ""
      ∧ (demoSlim.lookup "d").isSome = true
      ∧ _db_scope_check "d" "select 1 from zzz" demoSlim = false)
    ∧ procItems demoLoads demoOracle demoSlim (demoBadItem :: []) [] 1 =
        match repairResult demoLoads (demoOracle 1) "d" demoSlim with
        | some sql2 =>
          Except.map
            (fun r => ((⟨"d", sql2, purposeOf demoBadItem⟩ : PlanItem) :: r.1, r.2))
            (procItems demoLoads demoOracle demoSlim [] ("d" :: []) 2)
        | none => procItems demoLoads demoOracle demoSlim [] [] 2 :=
  ⟨⟨rfl, rfl, by decide, rfl, rfl, by decide, rfl, by decide⟩,
   plan_scope_violation_single_repair demoLoads demoOracle demoSlim
     demoBadItem [] [] 1 "d" "select 1 from zzz" rfl rfl (by decide) rfl rfl
     (by decide) rfl (by decide)⟩

/-- Witness for C4: a duplicate of an already-seen db_id is skipped, and a
concrete `plan` run returns pairwise-distinct db_ids. -/
theorem plan_first_db_id_wins_witness :
    (demoGoodItem.isObj = true
      ∧ seenHas ["d"] (jGet demoGoodItem "db_id") = true
      ∧ procItems demoLoads demoOracle demoSlim (demoGoodItem :: []) ["d"] 1 =
          procItems demoLoads demoOracle demoSlim [] ["d"] 1)
    ∧ (plan demoLoads demoOracle "q" demoCat =
        Except.ok ⟨[⟨"d", "select 1 from t1", Json.str "query"⟩], "x"⟩)
    ∧ (((⟨[⟨"d", "select 1 from t1", Json.str "query"⟩], "x"⟩ :
        PlanResult).per_db_sql).map PlanItem.db_id).Nodup :=
  ⟨⟨rfl, rfl,
    (plan_first_db_id_wins demoLoads demoOracle demoSlim).1
      demoGoodItem [] ["d"] 1 rfl rfl⟩,
   rfl,
   (plan_first_db_id_wins demoLoads demoOracle demoSlim).2 "q" demoCat
     ⟨[⟨"d", "select 1 from t1", Json.str "query"⟩], "x"⟩ rfl⟩

/-- Witness for C10: a scope-violating item whose repair fails is dropped
(after its single repair call), `seen` is unchanged, and the loop proceeds
to the next candidate — which carries the same db_id and is accepted. -/
theorem plan_dropped_item_does_not_block_witness :
    (procStep demoLoads demoOracle2 demoSlim demoBadItem [] 1 =
      Except.ok (none, [], 2))
    ∧ ([] : List String) = []
    ∧ procItems demoLoads demoOracle2 demoSlim
        (demoBadItem :: [demoGoodItem]) [] 1 =
      procItems demoLoads demoOracle2 demoSlim [demoGoodItem] [] 2 :=
  ⟨rfl,
   plan_dropped_item_does_not_block demoLoads demoOracle2 demoSlim
     demoBadItem [demoGoodItem] [] 1 [] 2 rfl⟩

/-- If `dropWhile p` leaves something, its head fails `p`. -/
theorem dropWhile_head_not {a : Type} (p : a → Bool) (l : List a)
    (h : l.dropWhile p ≠ []) :
    ∃ x, (l.dropWhile p).head? = some x ∧ p x = false := by
  rcases hd : l.dropWhile p with - | ⟨x, xs⟩
  · exact absurd hd h
  · refine ⟨x, rfl, ?_⟩
    have hh := List.head?_dropWhile_not p l
    rw [hd] at hh
    simpa using hh

/-- If `dropWhile p` leaves something, it keeps the last element. -/
theorem getLast_of_dropWhile {a : Type} (p : a → Bool) (l : List a) (x : a)
    (h : l.dropWhile p ≠ []) (hl : l.getLast? = some x) :
    (l.dropWhile p).getLast? = some x := by
  have hsp : l = l.takeWhile p ++ l.dropWhile p :=
    (List.takeWhile_append_dropWhile p l).symm
  rw [hsp, List.getLast?_append] at hl
  rcases ho : (l.dropWhile p).getLast? with - | y
  · rw [List.getLast?_eq_none_iff] at ho
    exact absurd ho h
  · rw [ho, Option.or_some] at hl
    exact hl

/-- The successful recovery match: the extracted block starts at the first
`\x7b` of the text, ends at a `\x7d`, and is followed only by whitespace. -/
theorem extractTrailingObj_some (t b : String)
    (h : extractTrailingObj t = some b) :
    ∃ pre ws, t.data = pre ++ b.data ++ ws
      ∧ (∀ c ∈ ws, pyIsSpace c = true)
      ∧ b.data.head? = some '\x7b'
      ∧ b.data.getLast? = some '\x7d'
      ∧ '\x7b' ∉ pre := by
  unfold extractTrailingObj at h
  dsimp only at h
  split at h
  · rename_i tail heq
    rw [heq] at h
    split at h
    · exact absurd h (by simp)
    · rename_i hne
      have hb : b.data =
          ('\x7d' :: tail).reverse.dropWhile (fun c => decide (c ≠ '\x7b')) := by
        cases h
        rfl
      have hafter :
          ('\x7d' :: tail).reverse.dropWhile (fun c => decide (c ≠ '\x7b')) ≠ [] := by
        intro hemp
        exact hne (by rw [hemp]; rfl)
      refine ⟨('\x7d' :: tail).reverse.takeWhile (fun c => decide (c ≠ '\x7b')),
        (t.data.reverse.takeWhile pyIsSpace).reverse, ?_, ?_, ?_, ?_, ?_⟩
      · have hsplit : t.data.reverse =
            t.data.reverse.takeWhile pyIsSpace ++ ('\x7d' :: tail) := by
          rw [← heq]
          exact (List.takeWhile_append_dropWhile pyIsSpace t.data.reverse).symm
        have h2 := congrArg List.reverse hsplit
        rw [List.reverse_reverse, List.reverse_append] at h2
        conv_lhs => rw [h2]
        rw [hb]
        conv_lhs =>
          rw [← List.takeWhile_append_dropWhile
            (fun c => decide (c ≠ '\x7b')) ('\x7d' :: tail).reverse]
      · intro c hc
        rw [List.mem_reverse] at hc
        exact List.mem_takeWhile_imp hc
      · rw [hb]
        obtain ⟨x, hx, hpx⟩ := dropWhile_head_not _ _ hafter
        have hx7b : x = '\x7b' := by simpa using hpx
        rw [hx7b] at hx
        exact hx
      · rw [hb]
        refine getLast_of_dropWhile _ _ _ hafter ?_
        rw [List.getLast?_eq_head?_reverse, List.reverse_reverse]
        rfl
      · intro hc
        exact absurd (List.mem_takeWhile_imp hc) (by simp)
  · exact absurd h (by simp)

/-- C8: `_coerce_json` returns the parsed object when the stripped raw text
is well-formed JSON; otherwise it makes exactly one recovery attempt on the
trailing brace-delimited block (a substring starting at a `\x7b`, ending at
a `\x7d` at the end of the text up to whitespace), and raises when no such
block exists or the block itself fails to parse — no second recovery. -/
theorem coerce_json_single_recovery (loads : String → Option Json)
    (text : String) :
    (∀ j, loads (pyStrip text) = some j →
      _coerce_json loads text = Except.ok j)
    ∧ (loads (pyStrip text) = none →
        _coerce_json loads text =
          match extractTrailingObj (pyStrip text) with
          | some block =>
            match loads block with
            | some j => Except.ok j
            | none => Except.error "json.JSONDecodeError"
          | none => Except.error "Planner LLM did not return valid JSON.")
    ∧ (∀ b, extractTrailingObj (pyStrip text) = some b →
        ∃ pre ws, (pyStrip text).data = pre ++ b.data ++ ws
          ∧ (∀ c ∈ ws, pyIsSpace c = true)
          ∧ b.data.head? = some '\x7b'
          ∧ b.data.getLast? = some '\x7d'
          ∧ '\x7b' ∉ pre) := by
  refine ⟨?_, ?_, ?_⟩
  · intro j hj
    unfold _coerce_json
    dsimp only
    rw [hj]
  · intro hnone
    unfold _coerce_json
    dsimp only
    rw [hnone]
  · intro b hb
    exact extractTrailingObj_some (pyStrip text) b hb

/-- Witness for C8 at a concrete unparseable text with a trailing block: the
recovery equation and the block characterization, instantiated. -/
theorem coerce_json_single_recovery_witness :
    ((fun s => if s = "\x7b1\x7d" then some (Json.arr []) else none)
        (pyStrip " noise \x7b1\x7d ") = none)
    ∧ (_coerce_json
        (fun s => if s = "\x7b1\x7d" then some (Json.arr []) else none)
        " noise \x7b1\x7d " =
          match extractTrailingObj (pyStrip " noise \x7b1\x7d ") with
          | some block =>
            match (fun s => if s = "\x7b1\x7d" then some (Json.arr []) else none)
                block with
            | some j => Except.ok j
            | none => Except.error "json.JSONDecodeError"
          | none => Except.error "Planner LLM did not return valid JSON.")
    ∧ (extractTrailingObj (pyStrip " noise \x7b1\x7d ") = some "\x7b1\x7d")
    ∧ ∃ pre ws, (pyStrip " noise \x7b1\x7d ").data =
          pre ++ ("\x7b1\x7d" : String).data ++ ws
        ∧ (∀ c ∈ ws, pyIsSpace c = true)
        ∧ ("\x7b1\x7d" : String).data.head? = some '\x7b'
        ∧ ("\x7b1\x7d" : String).data.getLast? = some '\x7d'
        ∧ '\x7b' ∉ pre :=
  ⟨rfl,
   (coerce_json_single_recovery
     (fun s => if s = "\x7b1\x7d" then some (Json.arr []) else none)
     " noise \x7b1\x7d ").2.1 rfl,
   rfl,
   (coerce_json_single_recovery
     (fun s => if s = "\x7b1\x7d" then some (Json.arr []) else none)
     " noise \x7b1\x7d ").2.2 "\x7b1\x7d" rfl⟩

/-- C7: `exec_sql` never lets an execution-layer failure escape: it is a
total function; a raised `SQLAlchemyError` yields empty columns, empty rows,
and a populated error message, while success yields the statement's
(str-coerced) keys, all rows eagerly materialized, and `error = None` — and
`error = None` happens exactly on success. -/
theorem exec_sql_boundary (run : String → String → DbOutcome)
    (dsn sql : String) :
    (∀ e, run dsn sql = .err e →
      exec_sql run dsn sql = ⟨[], [], some e⟩)
    ∧ (∀ keys rows, run dsn sql = .ok keys rows →
      exec_sql run dsn sql =
        ⟨keys.map (fun c => match c with | .str s => s | c => pyStr c),
         rows, none⟩)
    ∧ ((exec_sql run dsn sql).error = none ↔
        ∃ keys rows, run dsn sql = .ok keys rows) := by
  refine ⟨?_, ?_, ?_⟩
  · intro e he
    unfold exec_sql
    rw [he]
  · intro keys rows h
    unfold exec_sql
    rw [h]
  · unfold exec_sql
    cases hr : run dsn sql with
    | ok keys rows => exact iff_of_true rfl ⟨keys, rows, rfl⟩
    | err e =>
      refine iff_of_false (by simp) ?_
      rintro ⟨k, r, hko⟩
      cases hko

/-- Witness for C7 at a concrete failing and a concrete succeeding
execution layer. -/
theorem exec_sql_boundary_witness :
    ((fun (_ s : String) =>
        if s = "boom" then DbOutcome.err "bad dsn"
        else DbOutcome.ok [Json.str "c1"] [[("c1", Json.num 1)]])
      "db" "boom" = DbOutcome.err "bad dsn")
    ∧ exec_sql
        (fun (_ s : String) =>
          if s = "boom" then DbOutcome.err "bad dsn"
          else DbOutcome.ok [Json.str "c1"] [[("c1", Json.num 1)]])
        "db" "boom" = ⟨[], [], some "bad dsn"⟩ :=
  ⟨rfl,
   (exec_sql_boundary
     (fun (_ s : String) =>
        if s = "boom" then DbOutcome.err "bad dsn"
        else DbOutcome.ok [Json.str "c1"] [[("c1", Json.num 1)]])
     "db" "boom").1 "bad dsn" rfl⟩

/-- Counterexample to C3 as stated: the request body is not a function of
the query text and columns metadata alone — two calls agreeing on both but
configured with different model names produce different payloads. -/
theorem llm_fed_payload_depends_on_model :
    llm_fed_payload (fun _ => "") "q" "gpt-4o" [] ≠
      llm_fed_payload (fun _ => "") "q" "other-model" [] := by
  intro h
  simp only [llm_fed_payload, tableSchemasOf, List.map_nil, Json.obj.injEq,
    List.cons.injEq, Prod.mk.injEq, Json.str.injEq, true_and] at h
  exact absurd h.1 (by decide)

/-- C3 (amended): the request body `llm_generate_final_sql` posts is a
function only of the natural-language query text, the per-db `columns`
metadata entries, and the resolved model name: inputs agreeing on those
yield identical payloads, so no metadata value outside `columns` — in
particular no row-level data value — ever influences or appears in the
payload. -/
theorem llm_fed_payload_metadata_only (dumps : Json → String)
    (nl_query openai_model : String) (md1 md2 : List (String × Json))
    (h : md1.map (fun p => (p.1, colsOf p.2)) =
         md2.map (fun p => (p.1, colsOf p.2))) :
    llm_fed_payload dumps nl_query openai_model md1 =
      llm_fed_payload dumps nl_query openai_model md2 := by
  have h1 : tableSchemasOf md1 =
      (md1.map (fun p => (p.1, colsOf p.2))).map
        (fun q => (q.1, Json.obj [("columns", q.2)])) := by
    rw [List.map_map]
    rfl
  have h2 : tableSchemasOf md2 =
      (md2.map (fun p => (p.1, colsOf p.2))).map
        (fun q => (q.1, Json.obj [("columns", q.2)])) := by
    rw [List.map_map]
    rfl
  have hts : tableSchemasOf md1 = tableSchemasOf md2 := by
    rw [h1, h2, h]
  unfold llm_fed_payload
  rw [hts]

/-- Witness for C3 (amended): metadata carrying an extra `rows` entry with a
sensitive value yields the same payload as metadata without it, since they
agree on the `columns` entries. -/
theorem llm_fed_payload_metadata_only_witness :
    ([("a", Json.obj [("columns", Json.arr [Json.str "x int"]),
        ("rows", Json.str "SECRET-ROW-VALUE")])].map
          (fun p => (p.1, colsOf p.2)) =
      [("a", Json.obj [("columns", Json.arr [Json.str "x int"])])].map
          (fun p => (p.1, colsOf p.2)))
    ∧ llm_fed_payload (fun _ => "") "q" "gpt-4o"
        [("a", Json.obj [("columns", Json.arr [Json.str "x int"]),
          ("rows", Json.str "SECRET-ROW-VALUE")])] =
      llm_fed_payload (fun _ => "") "q" "gpt-4o"
        [("a", Json.obj [("columns", Json.arr [Json.str "x int"])])] :=
  ⟨rfl,
   llm_fed_payload_metadata_only (fun _ => "") "q" "gpt-4o"
     [("a", Json.obj [("columns", Json.arr [Json.str "x int"]),
       ("rows", Json.str "SECRET-ROW-VALUE")])]
     [("a", Json.obj [("columns", Json.arr [Json.str "x int"])])] rfl⟩

/-- C5: when exactly one db_id produced a result table, the federation step
returns that table unchanged as the final result, with no error, no LLM
federation request, and no analytical-engine use. -/
theorem federation_single_source_short_circuit
    (llmSql : String → List (String × List String) → Except String String)
    (engineExec : String → Except String DFrame)
    (describe : String → DFrame → List String)
    (query db_id : String) (df : DFrame) :
    federationStep llmSql engineExec describe query [(db_id, df)] =
      ⟨some df, none, false, false⟩ := rfl

/-- Membership in the inner insert fold of `unionCols`. -/
theorem mem_unionCols_step (cols : List String) :
    ∀ (acc : List String) (c : String),
      (c ∈ cols.foldl
        (fun acc c => if acc.contains c then acc else acc ++ [c]) acc)
        ↔ c ∈ acc ∨ c ∈ cols := by
  induction cols with
  | nil => intro acc c; simp
  | cons x xs ih =>
    intro acc c
    rw [List.foldl_cons]
    by_cases hx : acc.contains x
    · rw [if_pos hx, ih]
      have hxm : x ∈ acc := by
        simpa [List.contains_iff_exists_mem_beq] using hx
      constructor
      · rintro (h | h)
        · exact Or.inl h
        · exact Or.inr (List.mem_cons_of_mem _ h)
      · rintro (h | h)
        · exact Or.inl h
        · rcases List.mem_cons.mp h with rfl | h
          · exact Or.inl hxm
          · exact Or.inr h
    · rw [if_neg hx, ih]
      constructor
      · rintro (h | h)
        · rcases List.mem_append.mp h with h | h
          · exact Or.inl h
          · rcases List.mem_singleton.mp h with rfl
            exact Or.inr (List.mem_cons_self _ _)
        · exact Or.inr (List.mem_cons_of_mem _ h)
      · rintro (h | h)
        · exact Or.inl (List.mem_append_left _ h)
        · rcases List.mem_cons.mp h with rfl | h
          · exact Or.inl (List.mem_append_right _ (List.mem_singleton_self _))
          · exact Or.inr h

/-- Membership in the union fallback of the schema repair. -/
theorem mem_unionCols (all_cols : List (List String)) (c : String) :
    c ∈ unionCols all_cols ↔ ∃ cs ∈ all_cols, c ∈ cs := by
  unfold unionCols
  suffices h : ∀ acc, (c ∈ all_cols.foldl
      (fun acc cols => cols.foldl
        (fun acc c => if acc.contains c then acc else acc ++ [c]) acc) acc)
      ↔ c ∈ acc ∨ ∃ cs ∈ all_cols, c ∈ cs by
    simpa using h []
  induction all_cols with
  | nil => intro acc; simp
  | cons cs rest ih =>
    intro acc
    rw [List.foldl_cons, ih, mem_unionCols_step]
    constructor
    · rintro ((h | h) | ⟨cs', hcs', h⟩)
      · exact Or.inl h
      · exact Or.inr ⟨cs, List.mem_cons_self _ _, h⟩
      · exact Or.inr ⟨cs', List.mem_cons_of_mem _ hcs', h⟩
    · rintro (h | ⟨cs', hcs', h⟩)
      · exact Or.inl (Or.inl h)
      · rcases List.mem_cons.mp hcs' with rfl | hcs'
        · exact Or.inl (Or.inr h)
        · exact Or.inr ⟨cs', hcs', h⟩

/-- Membership in the intersection built by the schema repair. -/
theorem mem_commonCols (c0 : List String) (rest : List (List String))
    (c : String) :
    c ∈ commonCols (c0 :: rest) ↔ ∀ cs ∈ c0 :: rest, c ∈ cs := by
  unfold commonCols
  rw [List.mem_dedup, List.mem_filter]
  simp [List.all_eq_true, List.contains_iff_exists_mem_beq,
    List.forall_mem_cons]

/-- Counterexample to C6 as stated: when every registered source table has
zero columns, a successful federation run whose execution yields zero
columns still ends with a zero-column final table (the repair's union
fallback is empty), so a zero-column table can be returned as the
successful final result. -/
theorem federation_zero_columns_cex :
    federationStep demoLlmFed demoEngZero demoDescribe "q"
      [("a", ⟨[], []⟩), ("b", ⟨[], []⟩)] =
    ⟨some ⟨[], []⟩, none, true, true⟩ := rfl

/-- C6 (amended): when federation SQL execution succeeds with zero columns,
the final result's column set equals the intersection of the registered
source tables' column sets, or their union when that intersection is empty;
the final table has zero columns only when every source table itself has an
empty column set. -/
theorem federation_zero_column_schema_repair
    (llmSql : String → List (String × List String) → Except String String)
    (engineExec : String → Except String DFrame)
    (describe : String → DFrame → List String)
    (query : String) (p1 p2 : String × DFrame) (rest : List (String × DFrame))
    (sql_used : String) (df0 : DFrame)
    (hllm : llmSql query
      ((p1 :: p2 :: rest).map (fun p => (p.1, describe p.1 p.2))) =
        .ok sql_used)
    (heng : engineExec sql_used = .ok df0)
    (hzero : df0.columns = []) :
    ∃ dfr,
      federationStep llmSql engineExec describe query (p1 :: p2 :: rest) =
        ⟨some dfr, none, true, true⟩
      ∧ ((∃ c0, ∀ cs ∈ (p1 :: p2 :: rest).map (fun p => p.2.columns), c0 ∈ cs) →
          ∀ c, c ∈ dfr.columns ↔
            ∀ cs ∈ (p1 :: p2 :: rest).map (fun p => p.2.columns), c ∈ cs)
      ∧ ((¬ ∃ c0, ∀ cs ∈ (p1 :: p2 :: rest).map (fun p => p.2.columns), c0 ∈ cs) →
          ∀ c, c ∈ dfr.columns ↔
            ∃ cs ∈ (p1 :: p2 :: rest).map (fun p => p.2.columns), c ∈ cs)
      ∧ (dfr.columns = [] →
          ∀ cs ∈ (p1 :: p2 :: rest).map (fun p => p.2.columns), cs = []) := by
  have hstep : federationStep llmSql engineExec describe query
      (p1 :: p2 :: rest) =
      (if (commonCols ((p1 :: p2 :: rest).map (fun p => p.2.columns))).isEmpty
       then ⟨some ⟨unionCols ((p1 :: p2 :: rest).map (fun p => p.2.columns)), []⟩,
             none, true, true⟩
       else ⟨some ⟨commonCols ((p1 :: p2 :: rest).map (fun p => p.2.columns)), []⟩,
             none, true, true⟩) := by
    unfold federationStep
    dsimp only
    rw [hllm]
    dsimp only
    rw [heng]
    dsimp only
    rw [hzero]
    rfl
  by_cases hcomm :
      (commonCols ((p1 :: p2 :: rest).map (fun p => p.2.columns))).isEmpty
  · have hnil : commonCols ((p1 :: p2 :: rest).map (fun p => p.2.columns)) = [] := by
      rwa [List.isEmpty_iff] at hcomm
    refine ⟨⟨unionCols ((p1 :: p2 :: rest).map (fun p => p.2.columns)), []⟩,
      ?_, ?_, ?_, ?_⟩
    · rw [hstep, if_pos hcomm]
    · rintro ⟨c0, hc0⟩
      exfalso
      have hthis : c0 ∈ commonCols ((p1 :: p2 :: rest).map (fun p => p.2.columns)) := by
        rw [List.map_cons]
        exact (mem_commonCols _ _ _).mpr (by simpa [List.map_cons] using hc0)
      rw [hnil] at hthis
      cases hthis
    · intro _ c
      exact mem_unionCols _ c
    · intro hun cs hcs
      rcases hc : cs with - | ⟨x, t⟩
      · rfl
      · exfalso
        have hun' : unionCols ((p1 :: p2 :: rest).map (fun p => p.2.columns)) = [] :=
          hun
        have hxmem : x ∈ unionCols ((p1 :: p2 :: rest).map (fun p => p.2.columns)) :=
          (mem_unionCols _ x).mpr ⟨cs, hcs, by rw [hc]; exact List.mem_cons_self _ _⟩
        rw [hun'] at hxmem
        cases hxmem
  · have hne : commonCols ((p1 :: p2 :: rest).map (fun p => p.2.columns)) ≠ [] := by
      intro hn
      rw [hn] at hcomm
      exact hcomm rfl
    refine ⟨⟨commonCols ((p1 :: p2 :: rest).map (fun p => p.2.columns)), []⟩,
      ?_, ?_, ?_, ?_⟩
    · rw [hstep, if_neg hcomm]
    · intro _ c
      rw [List.map_cons]
      exact mem_commonCols _ _ c
    · intro hno
      exfalso
      obtain ⟨c, hcmem⟩ := List.exists_mem_of_ne_nil _ hne
      refine hno ⟨c, ?_⟩
      rw [List.map_cons] at hcmem ⊢
      exact (mem_commonCols _ _ c).mp hcmem
    · intro hn
      exact absurd hn hne

/-- Witness for C6 (amended): two sources sharing column `k`; the repaired
final result's column set is exactly the intersection `[k]`. -/
theorem federation_zero_column_schema_repair_witness :
    (demoLlmFed "q" (([("a", (⟨["k", "v1"], []⟩ : DFrame)),
        ("b", (⟨["k", "v2"], []⟩ : DFrame))]).map
          (fun p => (p.1, demoDescribe p.1 p.2))) = Except.ok "SELECT 1")
    ∧ (demoEngZero "SELECT 1" = Except.ok ⟨[], []⟩)
    ∧ ((⟨[], []⟩ : DFrame).columns = [])
    ∧ ∃ dfr,
        federationStep demoLlmFed demoEngZero demoDescribe "q"
          [("a", ⟨["k", "v1"], []⟩), ("b", ⟨["k", "v2"], []⟩)] =
          ⟨some dfr, none, true, true⟩
        ∧ ((∃ c0, ∀ cs ∈ ([("a", (⟨["k", "v1"], []⟩ : DFrame)),
              ("b", (⟨["k", "v2"], []⟩ : DFrame))]).map (fun p => p.2.columns),
              c0 ∈ cs) →
            ∀ c, c ∈ dfr.columns ↔
              ∀ cs ∈ ([("a", (⟨["k", "v1"], []⟩ : DFrame)),
                ("b", (⟨["k", "v2"], []⟩ : DFrame))]).map (fun p => p.2.columns),
                c ∈ cs)
        ∧ ((¬ ∃ c0, ∀ cs ∈ ([("a", (⟨["k", "v1"], []⟩ : DFrame)),
              ("b", (⟨["k", "v2"], []⟩ : DFrame))]).map (fun p => p.2.columns),
              c0 ∈ cs) →
            ∀ c, c ∈ dfr.columns ↔
              ∃ cs ∈ ([("a", (⟨["k", "v1"], []⟩ : DFrame)),
                ("b", (⟨["k", "v2"], []⟩ : DFrame))]).map (fun p => p.2.columns),
                c ∈ cs)
        ∧ (dfr.columns = [] →
            ∀ cs ∈ ([("a", (⟨["k", "v1"], []⟩ : DFrame)),
              ("b", (⟨["k", "v2"], []⟩ : DFrame))]).map (fun p => p.2.columns),
              cs = []) :=
  ⟨rfl, rfl, rfl,
   federation_zero_column_schema_repair demoLlmFed demoEngZero demoDescribe
     "q" ("a", ⟨["k", "v1"], []⟩) ("b", ⟨["k", "v2"], []⟩) [] "SELECT 1"
     ⟨[], []⟩ rfl rfl rfl⟩
